import Mathlib

/-!
Verification of the museum_book_prototype repository: a shallow embedding of
the switch-debouncer / page-selector state machine (`app.py`), the frame
cache manager and playback stream (`video_stream.py`), and the serial line
parser (`parse.py`), together with theorems settling the specification
claims about them.

Conventions of the embedding:
* Python floats carrying wall-clock times, frame rates and durations are
  modelled as rationals (`ℚ`).
* Python sets of page indices become canonical strictly increasing lists
  of naturals; the fault ledger `reported_faults : set[frozenset[int]]`
  becomes a `Finset` of such lists.
* Mutation of `self` becomes explicit state passing; each step returns the
  new state together with the list of ERROR-level log events it emitted.
-/

namespace MuseumBook

/-!
Python's `set[int]` / `frozenset[int]` values of page indices are
represented canonically as strictly increasing lists of naturals:
`floatingNow` below produces its set in strictly increasing order, so
Python's set equality coincides with equality of these canonical lists,
and Python's `sorted(...)` is the identity on them.
-/

/-- ERROR-level log events emitted by `App._check_invalid_state` and
`App._handle_input`. -/
inductive LogEvent where
  | errorContactorFault (page : ℕ)
  | errorFloatingFault (pages : List ℕ)
deriving DecidableEq, Repr

/-- The mutable debouncer state of `App` (`app.py`, `__init__`): the fields
`_current_page`, `floating_start_time`, `floating_pages`, `suspected_faulty`
and `reported_faults`. -/
structure AppState where
  current_page : Option String
  floating_start_time : Option ℚ
  floating_pages : Option (List ℕ)
  suspected_faulty : Option (List ℕ)
  reported_faults : Finset (List ℕ)
deriving DecidableEq

/-- The state of `App` right after `__init__` (`app.py` lines 68-80). -/
def initState : AppState :=
  { current_page := none
    floating_start_time := none
    floating_pages := none
    suspected_faulty := none
    reported_faults := ∅ }

/-- `App._check_invalid_state` (`app.py` lines 228-259): iterate over the
`(OPEN, CLOSED)` pairs with indices starting at `i`; on the first pair with
both switches true, clear floating tracking, mark the page suspected faulty,
force `current_page = None`, report the singleton fault signature if it is
new, and stop.  A pair that is not invalid has its singleton signature
discarded from `reported_faults` and iteration continues. -/
def checkInvalidAux : ℕ → List (Bool × Bool) → AppState → AppState × List LogEvent
  | _, [], s => (s, [])
  | i, (open_, close) :: rest, s =>
    if open_ && close then
      let s1 : AppState :=
        { s with floating_start_time := none
                 floating_pages := none
                 suspected_faulty := some [i]
                 current_page := none }
      if [i] ∈ s1.reported_faults then
        (s1, [])
      else
        ({ s1 with reported_faults := insert [i] s1.reported_faults },
         [LogEvent.errorContactorFault i])
    else
      checkInvalidAux (i + 1) rest
        { s with reported_faults := s.reported_faults.erase [i] }

/-- Index (counting from `i`) of the first page whose pair has both switches
true, mirroring the iteration order of `_check_invalid_state`. -/
def firstInvalidAux : ℕ → List (Bool × Bool) → Option ℕ
  | _, [] => none
  | i, (open_, close) :: rest =>
    if open_ && close then some i else firstInvalidAux (i + 1) rest

/-- The set `floating_now` of `App._handle_input` (`app.py` lines 288-292):
pages (1-based) whose open and close switches are both false. -/
def floatingNow (ps : List (Bool × Bool)) : List ℕ :=
  ps.enum.filterMap fun q =>
    if !q.2.1 && !q.2.2 then some (q.1 + 1) else none

/-- The floating branch of `App._handle_input` (`app.py` lines 293-321),
entered when `floating_now` is non-empty: restart the timer when no timer is
running or the floating set changed; otherwise, past 30 elapsed seconds,
report the floating set as a fault signature if it is new.  Every path
forces `current_page = None`. -/
def handleFloating (s1 : AppState) (now : ℚ) (fl : List ℕ)
    (logs1 : List LogEvent) : AppState × List LogEvent :=
  match s1.floating_start_time with
  | none =>
    ({ s1 with floating_start_time := some now
               floating_pages := some fl
               current_page := none }, logs1)
  | some start =>
    if s1.floating_pages ≠ some fl then
      ({ s1 with floating_start_time := some now
                 floating_pages := some fl
                 current_page := none }, logs1)
    else
      let elapsed := now - start
      if 30 < elapsed then
        if fl ∈ s1.reported_faults then
          ({ s1 with current_page := none }, logs1)
        else
          ({ s1 with suspected_faulty := some fl
                     reported_faults := insert fl s1.reported_faults
                     current_page := none },
           logs1 ++ [LogEvent.errorFloatingFault fl])
      else
        ({ s1 with current_page := none }, logs1)

/-- The non-floating branch of `App._handle_input` (`app.py` lines 322-331):
if a (truthy, hence non-empty) floating set was tracked, discard its fault
signature; then clear the floating timer, floating set and suspicion. -/
def clearFloating (s1 : AppState) : AppState :=
  let s2 : AppState :=
    match s1.floating_pages with
    | some flp =>
      if flp = [] then s1
      else { s1 with reported_faults := s1.reported_faults.erase flp }
    | none => s1
  { s2 with floating_start_time := none
            floating_pages := none
            suspected_faulty := none }

/-- The page chosen by the selection logic of `App._handle_input`
(`app.py` lines 333-363): all-closed, all-open, page-5-open, then the
highest open page, else none. -/
def codeSelect (ps : List (Bool × Bool)) : Option String :=
  let all_open := ps.all fun p => p.1 && !p.2
  let all_closed := ps.all fun p => p.2 && !p.1
  if all_closed then some "front_cover"
  else if all_open then some "back_cover"
  else
    let p5 := ps.getD 4 (false, false)
    if p5.1 && !p5.2 then some "back_cover"
    else
      let open_pages := ps.enum.filterMap fun q =>
        if q.2.1 && !q.2.2 then some (q.1 + 1) else none
      match open_pages.max? with
      | some chosen => some ("page" ++ toString chosen)
      | none => none

/-- `App._handle_input` (`app.py` lines 269-363) on an explicit list of
`(OPEN, CLOSED)` pairs: run the invalid-state check, then either the
floating branch or the clearing branch followed by page selection. -/
def handleInputPS (s : AppState) (now : ℚ) (ps : List (Bool × Bool)) :
    AppState × List LogEvent :=
  let r := checkInvalidAux 1 ps s
  let fl := floatingNow ps
  if fl = [] then
    ({ clearFloating r.1 with current_page := codeSelect ps }, r.2)
  else
    handleFloating r.1 now fl r.2

/-- The `page_states` snapshot of `App._handle_input` (`app.py` lines
277-283): look up `page{i}_open` / `page{i}_close` for `i = 1..5` in the
input dictionary, defaulting missing keys to false. -/
def pageStates (inputs : List (String × Bool)) : List (Bool × Bool) :=
  (List.range 5).map fun k =>
    ((inputs.lookup ("page" ++ toString (k + 1) ++ "_open")).getD false,
     (inputs.lookup ("page" ++ toString (k + 1) ++ "_close")).getD false)

/-- `App._handle_input` on a raw input dictionary. -/
def handleInput (s : AppState) (now : ℚ) (inputs : List (String × Bool)) :
    AppState × List LogEvent :=
  handleInputPS s now (pageStates inputs)

/-- Iterate `_handle_input` over a list of `(now, page_states)` snapshots,
collecting all ERROR-level log events in order. -/
def runSteps (s : AppState) : List (ℚ × List (Bool × Bool)) →
    AppState × List LogEvent
  | [] => (s, [])
  | (now, ps) :: rest =>
    let r := handleInputPS s now ps
    let r2 := runSteps r.1 rest
    (r2.1, r.2 ++ r2.2)

/-!
## The playback stream (`video_stream.py`)

The runtime playback fields of `VideoStream` are embedded as `PlayState`;
the cached frame files are abstracted to their count `frameCount`, a frame
surface to the index of the frame it was decoded from, and a disk load to
the recording of that index in the load list that `advance` returns
alongside the new state.
-/

/-- The playback-time fields of the `VideoStream` dataclass
(`video_stream.py` lines 25-33).  `frameCount` is `len(self.frame_paths)`;
`last_surface` holds the index of the loaded frame. -/
structure PlayState where
  frameCount : ℕ
  frame_duration : ℚ
  accumulator : ℚ
  elapsed_time : ℚ
  frame_index : ℕ
  finished : Bool
  last_surface : Option ℕ
  duration_seconds : ℚ
deriving DecidableEq

/-- The `duration` property (`video_stream.py` lines 122-128). -/
def durationOf (st : PlayState) : ℚ :=
  if 0 < st.duration_seconds then st.duration_seconds
  else if st.frameCount ≠ 0 then (st.frameCount : ℚ) * st.frame_duration else 0

/-- `VideoStream._load_frame` (`video_stream.py` lines 130-151) in the case
where the disk load succeeds at once: clamp the index into range, install
the surface and the clamped index.  (The retry loop around a failing load
is modelled separately by `loadFrameLoop`.) -/
def loadFrame (st : PlayState) (index : ℕ) : PlayState :=
  if st.frameCount = 0 then st
  else
    let clamped := min index (st.frameCount - 1)
    { st with last_surface := some clamped, frame_index := clamped }

/-- Result of the frame-stepping `while` loop inside `advance`. -/
structure LoopResult where
  acc : ℚ
  idx : ℕ
  fin : Bool
  loads : List ℕ
deriving DecidableEq

/-- The `while self.accumulator >= self.frame_duration and not self.finished`
loop of `VideoStream.advance` (`video_stream.py` lines 77-86), entered with
`finished = False`: consume one frame duration per iteration; a step beyond
the last frame marks `finished`, clamps the index and zeroes the
accumulator, otherwise the next frame is loaded from disk (recorded in
`loads`). -/
def advanceLoop (n : ℕ) (fd : ℚ) (acc : ℚ) (idx : ℕ) : LoopResult :=
  if fd ≤ acc then
    let acc' := acc - fd
    let next := idx + 1
    if _h : n ≤ next then { acc := 0, idx := n - 1, fin := true, loads := [] }
    else
      let r := advanceLoop n fd acc' next
      { r with loads := next :: r.loads }
  else { acc := acc, idx := idx, fin := false, loads := [] }
termination_by n - idx
decreasing_by omega

/-- `VideoStream.advance` (`video_stream.py` lines 66-98), returning the new
state and the indices of the frames it loaded from disk, in order.  The
surface returned to the caller is `(advance st dt).1.last_surface`. -/
def advance (st : PlayState) (dt : ℚ) : PlayState × List ℕ :=
  if st.frameCount = 0 then (st, [])
  else if st.finished then (st, [])
  else
    let acc0 := st.accumulator + dt
    let r := advanceLoop st.frameCount st.frame_duration acc0 st.frame_index
    let lastS : Option ℕ :=
      match r.loads.getLast? with
      | some j => some j
      | none => st.last_surface
    let st1 : PlayState :=
      { st with accumulator := r.acc, frame_index := r.idx, finished := r.fin,
                last_surface := lastS }
    let st2 : PlayState × List ℕ :=
      if st1.finished = true ∧ st1.last_surface = none then
        (loadFrame st1 st1.frame_index, [st1.frame_index])
      else (st1, [])
    let newElapsed : ℚ :=
      if st2.1.finished then durationOf st2.1
      else (st2.1.frame_index : ℚ) * st2.1.frame_duration +
        min st2.1.accumulator st2.1.frame_duration
    let st3 : PlayState := { st2.1 with elapsed_time := newElapsed }
    (st3, r.loads ++ st2.2)

/-- `VideoStream.reset` (`video_stream.py` lines 35-47) after a successful
`ensure_cache` that left the same non-empty frame list: restart playback at
frame 0 and eagerly load it. -/
def resetStream (st : PlayState) : PlayState :=
  loadFrame
    { st with accumulator := 0, elapsed_time := 0, frame_index := 0,
              finished := false, last_surface := none } 0

/-- `VideoStream.close` (`video_stream.py` lines 100-107). -/
def closeStream (st : PlayState) : PlayState :=
  { st with accumulator := 0, elapsed_time := 0, frame_index := 0,
            finished := true, last_surface := none }

/-- Run a list of `advance` calls, collecting every frame index loaded from
disk. -/
def runAdvances (st : PlayState) : List ℚ → PlayState × List ℕ
  | [] => (st, [])
  | dt :: rest =>
    let r := advance st dt
    let r2 := runAdvances r.1 rest
    (r2.1, r.2 ++ r2.2)

/-- Public operations of a `VideoStream` as called by `App`. -/
inductive StreamOp where
  | reset
  | adv (dt : ℚ)
  | close

/-- Apply one public stream operation. -/
def applyOp (st : PlayState) : StreamOp → PlayState
  | .reset => resetStream st
  | .adv dt => (advance st dt).1
  | .close => closeStream st

/-- Apply a sequence of public stream operations. -/
def runOps (st : PlayState) (ops : List StreamOp) : PlayState :=
  ops.foldl applyOp st

/-!
## The frame cache manager (`video_stream.py`)

The on-disk cache is abstracted to the metadata sidecar (or `none` when the
file is absent or unreadable, or the JSON object is empty) together with
the number of `frame_*.bmp` files present; the source video is abstracted
to its modification time and to the outcome a decode of it would produce.
-/

/-- The fields of the `metadata.json` sidecar as read back by
`_read_metadata`; each is optional because `dict.get` yields `None` for a
missing key, and `None == x` is false for every number `x`. -/
structure CacheMetadata where
  fps : Option ℚ
  frame_count : Option ℕ
  duration : Option ℚ
  width : Option ℕ
  height : Option ℕ
  fps_limit : Option ℚ
  source_mtime : Option ℚ
deriving DecidableEq

/-- The observable cache directory state: what `_read_metadata` returns and
how many frame files `_refresh_frame_paths` finds. -/
structure CacheFS where
  metadata : Option CacheMetadata
  frameFiles : ℕ
deriving DecidableEq

/-- What decoding the source video would produce: `clip.fps`,
`clip.duration` (both possibly `None`) and the number of frames
`iter_frames` yields. -/
structure DecodeSource where
  fps : Option ℚ
  duration : Option ℚ
  frames : ℕ
deriving DecidableEq

/-- `VideoStream._cache_is_valid` (`video_stream.py` lines 217-234). -/
def cacheIsValid (targetW targetH : ℕ) (fpsLimit srcMtime : ℚ)
    (metadata : Option CacheMetadata) (frameFiles : ℕ) : Bool :=
  match metadata with
  | none => false
  | some m =>
    if frameFiles = 0 then false
    else
      decide (m.source_mtime = some srcMtime) &&
      decide (m.width = some targetW) &&
      decide (m.height = some targetH) &&
      decide (m.fps_limit = some fpsLimit) &&
      decide (m.frame_count = some frameFiles)

/-- `VideoStream._rebuild_cache` (`video_stream.py` lines 153-195): compute
the playback fps from the clip fps and the limit (Python `or` treats both
`None` and `0.0` as absent), fail when zero frames are decoded, otherwise
write one file per frame and the metadata fingerprint. -/
def rebuildCache (targetW targetH : ℕ) (fpsLimit srcMtime : ℚ)
    (dec : DecodeSource) : Except String CacheFS :=
  let source_fps : ℚ :=
    match dec.fps with
    | none => 24
    | some f => if f = 0 then 24 else f
  let playback_fps0 : ℚ := if 0 < fpsLimit then min source_fps fpsLimit else source_fps
  let playback_fps : ℚ := if playback_fps0 ≤ 0 then 24 else playback_fps0
  let dur : ℚ :=
    match dec.duration with
    | none => (dec.frames : ℚ) / playback_fps
    | some d => if d = 0 then (dec.frames : ℚ) / playback_fps else d
  if dec.frames = 0 then .error "no frames decoded"
  else
    .ok { metadata := some
            { fps := some playback_fps
              frame_count := some dec.frames
              duration := some dur
              width := some targetW
              height := some targetH
              fps_limit := some fpsLimit
              source_mtime := some srcMtime }
          frameFiles := dec.frames }

/-- The playback parameters `_apply_metadata` (`video_stream.py` lines
205-215) derives from the metadata. -/
structure ApplyResult where
  fps : ℚ
  frame_duration : ℚ
  duration_seconds : ℚ
deriving DecidableEq

/-- `VideoStream._apply_metadata` (`video_stream.py` lines 205-215). -/
def applyMetadata (m : CacheMetadata) (frameFiles : ℕ) : ApplyResult :=
  let fps0 := m.fps.getD 24
  let fps := if fps0 ≤ 0 then 24 else fps0
  let fd := 1 / fps
  { fps := fps
    frame_duration := fd
    duration_seconds := m.duration.getD ((frameFiles : ℚ) * fd) }

/-- `VideoStream.ensure_cache` (`video_stream.py` lines 49-64): read the
metadata and frame list, rebuild when the cache is invalid, fail when no
metadata or no frames remain, and apply the metadata.  The boolean result
records whether a rebuild (a full decode) was performed. -/
def ensureCache (targetW targetH : ℕ) (fpsLimit srcMtime : ℚ)
    (dec : DecodeSource) (fs : CacheFS) :
    Except String (CacheFS × ApplyResult × Bool) :=
  let valid := cacheIsValid targetW targetH fpsLimit srcMtime fs.metadata fs.frameFiles
  let fsE : Except String CacheFS :=
    if valid then .ok fs else rebuildCache targetW targetH fpsLimit srcMtime dec
  match fsE with
  | .error e => .error e
  | .ok fs' =>
    match fs'.metadata with
    | none => .error "cache build failed"
    | some m =>
      if fs'.frameFiles = 0 then .error "cache build failed"
      else .ok (fs', applyMetadata m fs'.frameFiles, !valid)

/-!
## The load-failure retry loop of `_load_frame`

`VideoStream._load_frame` (`video_stream.py` lines 138-146) runs
`while True: try: load; except: ensure_cache()` — it leaves the loop only
when a load succeeds.  `loadOk k` tells whether the `k`-th load attempt
succeeds; since the Python loop has no retry cap, the embedding bounds the
observation window by `fuel` iterations: a `none` result means the loop was
still running after `fuel` attempts, and the second component counts the
`ensure_cache` rebuild-and-retry cycles performed in that window. -/
def loadFrameLoop (loadOk : ℕ → Bool) : ℕ → ℕ → Option ℕ × ℕ
  | _, 0 => (none, 0)
  | attempt, fuel + 1 =>
    if loadOk attempt then (some attempt, 0)
    else
      let r := loadFrameLoop loadOk (attempt + 1) fuel
      (r.1, r.2 + 1)

/-!
## The serial line parser (`parse.py`)
-/

/-- Log events of `DataParser.parse_line`. -/
inductive ParseLog where
  | warnUnexpectedCount (got expected : ℕ)
  | errorValueFailure
deriving DecidableEq

/-- `DataParser.map` (`parse.py` lines 25-36) extended by the
`unknown_{index}` fallback of `parse_line`. -/
def parserKey : ℕ → String
  | 0 => "page1_open"
  | 1 => "page1_close"
  | 2 => "page2_open"
  | 3 => "page2_close"
  | 4 => "page3_open"
  | 5 => "page3_close"
  | 6 => "page4_open"
  | 7 => "page4_close"
  | 8 => "page5_open"
  | 9 => "page5_close"
  | n => "unknown_" ++ toString n

/-- Python `int(s)` on a decimal string: strip surrounding whitespace,
allow one sign, then digits only; `none` models the `ValueError`.
(Underscore digit separators, accepted by Python, are not modelled; no
claim depends on them.) -/
def pyInt (s : String) : Option ℤ :=
  let t := s.trim
  let neg := t.startsWith "-"
  let core := if t.startsWith "-" || t.startsWith "+" then t.drop 1 else t
  if core.isEmpty then none
  else
    match core.toNat? with
    | some n => if neg then some (-(n : ℤ)) else some (n : ℤ)
    | none => none

/-- The field loop of `DataParser.parse_line` (`parse.py` lines 68-70):
assign `bool(int(state))` to the mapped key of each field in order; a
`ValueError` aborts the loop, keeps the fields assigned so far, and logs an
error. -/
def parseFields : ℕ → List String → List (String × Bool) × List ParseLog
  | _, [] => ([], [])
  | idx, st :: rest =>
    match pyInt st with
    | none => ([], [ParseLog.errorValueFailure])
    | some v =>
      let r := parseFields (idx + 1) rest
      ((parserKey idx, v != 0) :: r.1, r.2)

/-- `DataParser.parse_line` (`parse.py` lines 53-74): split the stripped
line on commas, warn (without rejecting) when the field count is not ten,
then parse the fields in order. -/
def parseLine (line : String) : List (String × Bool) × List ParseLog :=
  let states := line.trim.splitOn ","
  let warn : List ParseLog :=
    if states.length ≠ 10 then [ParseLog.warnUnexpectedCount states.length 10] else []
  let r := parseFields 0 states
  (r.1, warn ++ r.2)

/-!
## Lemmas about the invalid-state check
-/

theorem firstInvalidAux_ge :
    ∀ (ps : List (Bool × Bool)) (i j : ℕ), firstInvalidAux i ps = some j → i ≤ j := by
  intro ps
  induction ps with
  | nil => intro i j h; simp [firstInvalidAux] at h
  | cons p rest ih =>
    intro i j h
    rcases p with ⟨o, c⟩
    simp only [firstInvalidAux] at h
    by_cases hoc : (o && c) = true
    · rw [if_pos hoc] at h
      have := Option.some.inj h
      omega
    · rw [if_neg hoc] at h
      have := ih (i + 1) j h
      omega

theorem checkInvalid_none :
    ∀ (ps : List (Bool × Bool)) (i : ℕ) (s : AppState),
      firstInvalidAux i ps = none →
      (checkInvalidAux i ps s).2 = [] ∧
      (checkInvalidAux i ps s).1.current_page = s.current_page ∧
      (checkInvalidAux i ps s).1.floating_start_time = s.floating_start_time ∧
      (checkInvalidAux i ps s).1.floating_pages = s.floating_pages ∧
      (checkInvalidAux i ps s).1.suspected_faulty = s.suspected_faulty ∧
      ∀ σ : List ℕ, σ ∈ (checkInvalidAux i ps s).1.reported_faults ↔
        (σ ∈ s.reported_faults ∧ ∀ k, k < ps.length → σ ≠ [i + k]) := by
  intro ps
  induction ps with
  | nil =>
    intro i s _
    simp [checkInvalidAux]
  | cons p rest ih =>
    intro i s h
    rcases p with ⟨o, c⟩
    simp only [firstInvalidAux] at h
    by_cases hoc : (o && c) = true
    · rw [if_pos hoc] at h; exact absurd h (by simp)
    · rw [if_neg hoc] at h
      simp only [checkInvalidAux, hoc, Bool.false_eq_true, if_false]
      obtain ⟨h1, h2, h3, h4, h5, h6⟩ :=
        ih (i + 1) { s with reported_faults := s.reported_faults.erase [i] } h
      refine ⟨h1, h2, h3, h4, h5, ?_⟩
      intro σ
      rw [h6 σ]
      simp only [Finset.mem_erase, List.length_cons]
      constructor
      · rintro ⟨⟨hne, hmem⟩, hall⟩
        refine ⟨hmem, ?_⟩
        intro k hk
        rcases Nat.eq_zero_or_pos k with rfl | hkpos
        · simpa using hne
        · have : k - 1 < rest.length := by omega
          have := hall (k - 1) this
          have hik : i + 1 + (k - 1) = i + k := by omega
          rwa [hik] at this
      · rintro ⟨hmem, hall⟩
        refine ⟨⟨?_, hmem⟩, ?_⟩
        · have := hall 0 (by omega)
          simpa using this
        · intro k hk
          have := hall (k + 1) (by omega)
          have hik : i + (k + 1) = i + 1 + k := by omega
          rwa [hik] at this

theorem checkInvalid_found :
    ∀ (ps : List (Bool × Bool)) (i : ℕ) (s : AppState) (j : ℕ),
      firstInvalidAux i ps = some j →
      (checkInvalidAux i ps s).1.current_page = none ∧
      (checkInvalidAux i ps s).1.floating_start_time = none ∧
      (checkInvalidAux i ps s).1.floating_pages = none ∧
      (checkInvalidAux i ps s).1.suspected_faulty = some [j] ∧
      [j] ∈ (checkInvalidAux i ps s).1.reported_faults ∧
      (checkInvalidAux i ps s).2 =
        (if [j] ∈ s.reported_faults then [] else [LogEvent.errorContactorFault j]) ∧
      (∀ σ : List ℕ, σ ∈ (checkInvalidAux i ps s).1.reported_faults →
        σ ∈ s.reported_faults ∨ σ = [j]) := by
  intro ps
  induction ps with
  | nil => intro i s j h; simp [firstInvalidAux] at h
  | cons p rest ih =>
    intro i s j h
    rcases p with ⟨o, c⟩
    simp only [firstInvalidAux] at h
    by_cases hoc : (o && c) = true
    · rw [if_pos hoc] at h
      have hj : j = i := by
        have := Option.some.inj h
        omega
      subst hj
      simp only [checkInvalidAux, hoc, if_true]
      by_cases hm : [j] ∈ s.reported_faults
      · rw [if_pos hm, if_pos hm]
        exact ⟨rfl, rfl, rfl, rfl, hm, rfl, fun σ hσ => Or.inl hσ⟩
      · rw [if_neg hm, if_neg hm]
        refine ⟨rfl, rfl, rfl, rfl, ?_, rfl, ?_⟩
        · exact Finset.mem_insert_self _ _
        · intro σ hσ
          rcases Finset.mem_insert.mp hσ with h' | h'
          · exact Or.inr h'
          · exact Or.inl h'
    · rw [if_neg hoc] at h
      have hij : i + 1 ≤ j := firstInvalidAux_ge rest (i + 1) j h
      have hji : [j] ≠ [i] := by
        intro he
        have : j = i := by simpa using he
        omega
      simp only [checkInvalidAux, hoc, Bool.false_eq_true, if_false]
      obtain ⟨h1, h2, h3, h4, h5, h6, h7⟩ :=
        ih (i + 1) { s with reported_faults := s.reported_faults.erase [i] } j h
      refine ⟨h1, h2, h3, h4, h5, ?_, ?_⟩
      · rw [h6]
        have : ([j] ∈ s.reported_faults.erase [i]) = ([j] ∈ s.reported_faults) := by
          simp [Finset.mem_erase, hji]
        simp only [this]
      · intro σ hσ
        rcases h7 σ hσ with h' | h'
        · exact Or.inl (Finset.mem_of_mem_erase h')
        · exact Or.inr h'

/-!
## Lemmas about the floating branch and the full step
-/

theorem handleFloating_current_page (s1 : AppState) (now : ℚ) (fl : List ℕ)
    (L : List LogEvent) : (handleFloating s1 now fl L).1.current_page = none := by
  unfold handleFloating
  split
  · rfl
  · split
    · rfl
    · dsimp only
      split
      · split <;> rfl
      · rfl

theorem handleFloating_reported_sub (s1 : AppState) (now : ℚ) (fl : List ℕ)
    (L : List LogEvent) (σ : List ℕ)
    (h : σ ∈ (handleFloating s1 now fl L).1.reported_faults) :
    σ ∈ s1.reported_faults ∨ σ = fl := by
  unfold handleFloating at h
  split at h
  · exact Or.inl h
  · split at h
    · exact Or.inl h
    · dsimp only at h
      split at h
      · split at h
        · exact Or.inl h
        · simp only at h
          rcases Finset.mem_insert.mp h with h' | h'
          · exact Or.inr h'
          · exact Or.inl h'
      · exact Or.inl h

/-- When no page is floating, the step ends by installing exactly the page
chosen by the selection logic, independent of the prior state and of the
time. -/
theorem handleInput_select (s : AppState) (now : ℚ) (ps : List (Bool × Bool))
    (h : floatingNow ps = []) :
    (handleInputPS s now ps).1.current_page = codeSelect ps := by
  unfold handleInputPS
  rw [if_pos h]

theorem clearFloating_reported_sub (s1 : AppState) (σ : List ℕ)
    (h : σ ∈ (clearFloating s1).reported_faults) : σ ∈ s1.reported_faults := by
  unfold clearFloating at h
  dsimp only at h
  split at h
  · split at h
    · exact h
    · exact Finset.mem_of_mem_erase h
  · exact h

/-- The set of fault signatures whose defining condition is observed in the
snapshot `ps`: the singleton of the first invalid page, or the (non-empty)
set of floating pages. -/
def ObservedSig (σ : List ℕ) (ps : List (Bool × Bool)) : Prop :=
  (∃ j, firstInvalidAux 1 ps = some j ∧ σ = [j]) ∨
  (floatingNow ps ≠ [] ∧ σ = floatingNow ps)

theorem reported_step_sound (s : AppState) (now : ℚ) (ps : List (Bool × Bool))
    (σ : List ℕ) (h : σ ∈ (handleInputPS s now ps).1.reported_faults) :
    σ ∈ s.reported_faults ∨ ObservedSig σ ps := by
  unfold handleInputPS at h
  by_cases hfl : floatingNow ps = []
  · rw [if_pos hfl] at h
    simp only at h
    have h' := clearFloating_reported_sub _ _ h
    rcases hinv : firstInvalidAux 1 ps with _ | j
    · obtain ⟨_, _, _, _, _, h6⟩ := checkInvalid_none ps 1 s hinv
      exact Or.inl ((h6 σ).mp h').1
    · obtain ⟨_, _, _, _, _, _, h7⟩ := checkInvalid_found ps 1 s j hinv
      rcases h7 σ h' with h'' | h''
      · exact Or.inl h''
      · exact Or.inr (Or.inl ⟨j, hinv, h''⟩)
  · rw [if_neg hfl] at h
    rcases handleFloating_reported_sub _ _ _ _ _ h with h' | h'
    · rcases hinv : firstInvalidAux 1 ps with _ | j
      · obtain ⟨_, _, _, _, _, h6⟩ := checkInvalid_none ps 1 s hinv
        exact Or.inl ((h6 σ).mp h').1
      · obtain ⟨_, _, _, _, _, _, h7⟩ := checkInvalid_found ps 1 s j hinv
        rcases h7 σ h' with h'' | h''
        · exact Or.inl h''
        · exact Or.inr (Or.inl ⟨j, hinv, h''⟩)
    · exact Or.inr (Or.inr ⟨hfl, h'⟩)

theorem runSteps_reported_sound :
    ∀ (steps : List (ℚ × List (Bool × Bool))) (s : AppState) (σ : List ℕ),
      σ ∈ (runSteps s steps).1.reported_faults →
      σ ∈ s.reported_faults ∨ ∃ q ∈ steps, ObservedSig σ q.2 := by
  intro steps
  induction steps with
  | nil => intro s σ h; exact Or.inl h
  | cons q rest ih =>
    intro s σ h
    rcases q with ⟨now, ps⟩
    simp only [runSteps] at h
    rcases ih (handleInputPS s now ps).1 σ h with h' | h'
    · rcases reported_step_sound s now ps σ h' with h'' | h''
      · exact Or.inl h''
      · exact Or.inr ⟨(now, ps), List.mem_cons_self _ _, h''⟩
    · obtain ⟨q', hq', hobs⟩ := h'
      exact Or.inr ⟨q', List.mem_cons_of_mem _ hq', hobs⟩

theorem handleFloating_of_none (s1 : AppState) (now : ℚ) (fl : List ℕ)
    (L : List LogEvent) (h : s1.floating_start_time = none) :
    handleFloating s1 now fl L =
      ({ s1 with floating_start_time := some now, floating_pages := some fl,
                 current_page := none }, L) := by
  unfold handleFloating
  rw [h]

theorem clearFloating_of_fpnone (s1 : AppState) (h : s1.floating_pages = none) :
    clearFloating s1 =
      { s1 with floating_start_time := none, floating_pages := none,
                suspected_faulty := none } := by
  unfold clearFloating
  rw [h]

theorem clearFloating_reported_mem (s1 : AppState) (σ : List ℕ) :
    σ ∈ (clearFloating s1).reported_faults ↔
      σ ∈ s1.reported_faults ∧ ¬(s1.floating_pages = some σ ∧ σ ≠ []) := by
  unfold clearFloating
  rcases hq : s1.floating_pages with _ | flp
  · dsimp only
    simp
  · dsimp only
    by_cases he : flp = []
    · rw [if_pos he]
      subst he
      constructor
      · intro hmem
        refine ⟨hmem, ?_⟩
        rintro ⟨hs, hne⟩
        exact hne (Option.some.inj hs).symm
      · exact fun hp => hp.1
    · rw [if_neg he]
      dsimp only
      simp only [Finset.mem_erase]
      constructor
      · rintro ⟨hne, hmem⟩
        refine ⟨hmem, ?_⟩
        rintro ⟨hs, -⟩
        exact hne (Option.some.inj hs).symm
      · rintro ⟨hmem, hnp⟩
        refine ⟨?_, hmem⟩
        intro hσ
        subst hσ
        exact hnp ⟨rfl, he⟩

/-!
## Claim theorems about the switch debouncer
-/

/-- Claim C1 (amended).  When the input snapshot has an invalid page and `j`
is the lowest such index, one `_handle_input` step: reports the singleton
signature `[j]` at ERROR level exactly when it was not already in
`reported_faults`, and leaves it recorded; if additionally no page is
floating, the step ends with `suspected_faulty = None`, cleared floating
tracking, and `current_page` set by the ordinary selection logic (which can
differ from `None`); if some page is floating, the step ends with
`current_page = None`, `suspected_faulty = [j]`, and the floating timer
restarted at `now`.  A snapshot making page 3 valid again and then invalid
again yields a second ERROR report (final conjunct, a concrete trace). -/
theorem c1_invalid_state_step (s : AppState) (now : ℚ) (ps : List (Bool × Bool))
    (j : ℕ) (h : firstInvalidAux 1 ps = some j) :
    (LogEvent.errorContactorFault j ∈ (handleInputPS s now ps).2 ↔
      [j] ∉ s.reported_faults) ∧
    [j] ∈ (handleInputPS s now ps).1.reported_faults ∧
    (floatingNow ps = [] →
      (handleInputPS s now ps).1.suspected_faulty = none ∧
      (handleInputPS s now ps).1.floating_start_time = none ∧
      (handleInputPS s now ps).1.floating_pages = none ∧
      (handleInputPS s now ps).1.current_page = codeSelect ps) ∧
    (floatingNow ps ≠ [] →
      (handleInputPS s now ps).1.current_page = none ∧
      (handleInputPS s now ps).1.suspected_faulty = some [j] ∧
      (handleInputPS s now ps).1.floating_start_time = some now ∧
      (handleInputPS s now ps).1.floating_pages = some (floatingNow ps)) ∧
    (runSteps initState
      [(0, [(false, true), (false, true), (true, true), (false, true), (false, true)]),
       (1, [(false, true), (false, true), (false, true), (false, true), (false, true)]),
       (2, [(false, true), (false, true), (true, true), (false, true), (false, true)])]).2
      = [LogEvent.errorContactorFault 3, LogEvent.errorContactorFault 3] := by
  obtain ⟨hc, hst, hfp, hsus, hmem, hlog, _⟩ := checkInvalid_found ps 1 s j h
  by_cases hfl : floatingNow ps = []
  · have hstep : handleInputPS s now ps =
        ({ clearFloating (checkInvalidAux 1 ps s).1 with current_page := codeSelect ps },
         (checkInvalidAux 1 ps s).2) := by
      unfold handleInputPS
      rw [if_pos hfl]
    rw [hstep]
    refine ⟨?_, ?_, fun _ => ⟨rfl, rfl, rfl, rfl⟩, fun hne => absurd hfl hne, by decide⟩
    · rw [hlog]
      by_cases hm : [j] ∈ s.reported_faults
      · rw [if_pos hm]; simp [hm]
      · rw [if_neg hm]; simp [hm]
    · show [j] ∈ (clearFloating (checkInvalidAux 1 ps s).1).reported_faults
      rw [clearFloating_of_fpnone _ hfp]
      exact hmem
  · have hstep : handleInputPS s now ps =
        handleFloating (checkInvalidAux 1 ps s).1 now (floatingNow ps)
          (checkInvalidAux 1 ps s).2 := by
      unfold handleInputPS
      rw [if_neg hfl]
    rw [hstep, handleFloating_of_none _ _ _ _ hst]
    refine ⟨?_, hmem, fun he => absurd he hfl, fun _ => ⟨rfl, hsus, rfl, rfl⟩, by decide⟩
    rw [hlog]
    by_cases hm : [j] ∈ s.reported_faults
    · rw [if_pos hm]; simp [hm]
    · rw [if_neg hm]; simp [hm]

/-- Claim C1 counterexample: with page 1 invalid (both switches true),
pages 2-4 consistently closed and page 5 open, the very `_handle_input`
step that detects the invalid state ends with
`current_page = back_cover` and `suspected_faulty = None` — not the
`current_page = None` / `suspected_faulty = [1]` post-state the claim
asserts. -/
theorem c1_counterexample :
    firstInvalidAux 1
        [(true, true), (false, true), (false, true), (false, true), (true, false)]
      = some 1 ∧
    (handleInputPS initState 0
        [(true, true), (false, true), (false, true), (false, true), (true, false)]
      ).1.current_page = some "back_cover" ∧
    (handleInputPS initState 0
        [(true, true), (false, true), (false, true), (false, true), (true, false)]
      ).1.suspected_faulty = none := by
  decide

theorem c1_witness :
    LogEvent.errorContactorFault 1 ∈
      (handleInputPS initState 0
        [(true, true), (false, true), (false, true), (false, true), (false, true)]).2 ∧
    [1] ∈ (handleInputPS initState 0
        [(true, true), (false, true), (false, true), (false, true), (false, true)]
      ).1.reported_faults := by
  have H := c1_invalid_state_step initState 0
    [(true, true), (false, true), (false, true), (false, true), (false, true)] 1 (by decide)
  exact ⟨H.1.mpr (by decide), H.2.1⟩

/-- Claim C2 (amended).  Soundness holds: every signature in
`reported_faults` of a state reached from startup was observed (as the
lowest invalid page's singleton, or as the floating set) in some earlier
snapshot.  Removal, however, is only guaranteed in the stated cases: on a
snapshot with no invalid page and no floating page, a signature survives
the step iff it was present, is not one of the singletons `[1]`..`[n]`
scanned by the invalid check, and is not the tracked floating set being
cleared.  (On other snapshots stale signatures can survive, see the
counterexample.) -/
theorem c2_reported_faults_invariant :
    (∀ (steps : List (ℚ × List (Bool × Bool))) (σ : List ℕ),
      σ ∈ (runSteps initState steps).1.reported_faults →
      ∃ q ∈ steps, ObservedSig σ q.2) ∧
    (∀ (s : AppState) (now : ℚ) (ps : List (Bool × Bool)) (σ : List ℕ),
      firstInvalidAux 1 ps = none → floatingNow ps = [] →
      (σ ∈ (handleInputPS s now ps).1.reported_faults ↔
        σ ∈ s.reported_faults ∧ (∀ k, k < ps.length → σ ≠ [1 + k]) ∧
          ¬(s.floating_pages = some σ ∧ σ ≠ []))) := by
  constructor
  · intro steps σ hmem
    rcases runSteps_reported_sound steps initState σ hmem with h' | h'
    · simp [initState] at h'
    · exact h'
  · intro s now ps σ hinv hfl
    obtain ⟨_, _, _, hfp, _, h6⟩ := checkInvalid_none ps 1 s hinv
    have hstep : handleInputPS s now ps =
        ({ clearFloating (checkInvalidAux 1 ps s).1 with current_page := codeSelect ps },
         (checkInvalidAux 1 ps s).2) := by
      unfold handleInputPS
      rw [if_pos hfl]
    rw [hstep]
    show σ ∈ (clearFloating (checkInvalidAux 1 ps s).1).reported_faults ↔ _
    rw [clearFloating_reported_mem, h6 σ, hfp]
    tauto

/-- Claim C2 counterexample: after a step in which page 2 was invalid, a
second snapshot makes page 1 invalid and page 2 consistently closed; the
invalid-state scan stops at page 1, so the stale signature `{2}` survives
the step even though its condition is no longer observed in that
snapshot. -/
theorem c2_counterexample :
    [2] ∈ (runSteps initState
        [(0, [(false, true), (true, true), (false, true), (false, true), (false, true)]),
         (1, [(true, true), (false, true), (false, true), (false, true), (false, true)])]
      ).1.reported_faults ∧
    ¬ ObservedSig [2]
        [(true, true), (false, true), (false, true), (false, true), (false, true)] := by
  constructor
  · decide
  · rintro (⟨j, hj, hσ⟩ | ⟨hne, hσ⟩)
    · have h1 : firstInvalidAux 1
          [(true, true), (false, true), (false, true), (false, true), (false, true)]
          = some 1 := by decide
      rw [h1] at hj
      rw [(Option.some.inj hj).symm] at hσ
      exact absurd hσ (by decide)
    · exact hne (by decide)

theorem c2_witness :
    ∃ q ∈ [((0 : ℚ),
        [(false, true), (true, true), (false, true), (false, true), (false, true)])],
      ObservedSig [2] q.2 :=
  c2_reported_faults_invariant.1
    [(0, [(false, true), (true, true), (false, true), (false, true), (false, true)])]
    [2] (by decide)

/-- Claim C3: page selection as the specification words it — all five pairs
closed gives the front cover; all five open gives the back cover; page 5
open-not-closed gives the back cover; otherwise the highest open-not-closed
index gives that page; otherwise no page. -/
def selectSpec (ps : List (Bool × Bool)) : Option String :=
  if ps.all (· == (false, true)) then some "front_cover"
  else if ps.all (· == (true, false)) then some "back_cover"
  else if ps.getD 4 (false, false) == (true, false) then some "back_cover"
  else
    match ((ps.enum.filter fun q => q.2 == (true, false)).map fun q => q.1 + 1).max? with
    | some i => some ("page" ++ toString i)
    | none => none

theorem codeSelect_eq_selectSpec :
    ∀ a b c d e f g h i j : Bool,
      codeSelect [(a, b), (c, d), (e, f), (g, h), (i, j)]
        = selectSpec [(a, b), (c, d), (e, f), (g, h), (i, j)] := by
  decide

/-- Claim C3 (confirmed).  For every snapshot in which each page is exactly
one of open or closed (no invalid and no floating pair), the page installed
by `_handle_input` is the one given by the specification's selection cases,
and it depends only on the snapshot — not on the prior state or the
time. -/
theorem c3_page_selection (a1 b1 a2 b2 a3 b3 a4 b4 a5 b5 : Bool)
    (s s' : AppState) (now now' : ℚ)
    (hx : a1 ≠ b1 ∧ a2 ≠ b2 ∧ a3 ≠ b3 ∧ a4 ≠ b4 ∧ a5 ≠ b5) :
    (handleInputPS s now
        [(a1, b1), (a2, b2), (a3, b3), (a4, b4), (a5, b5)]).1.current_page
      = selectSpec [(a1, b1), (a2, b2), (a3, b3), (a4, b4), (a5, b5)] ∧
    (handleInputPS s now
        [(a1, b1), (a2, b2), (a3, b3), (a4, b4), (a5, b5)]).1.current_page
      = (handleInputPS s' now'
        [(a1, b1), (a2, b2), (a3, b3), (a4, b4), (a5, b5)]).1.current_page := by
  have hfl : floatingNow [(a1, b1), (a2, b2), (a3, b3), (a4, b4), (a5, b5)] = [] := by
    revert hx
    revert a1 b1 a2 b2 a3 b3 a4 b4 a5 b5
    decide
  have e1 := handleInput_select s now _ hfl
  have e2 := handleInput_select s' now' _ hfl
  rw [e1, e2, codeSelect_eq_selectSpec]
  exact ⟨rfl, rfl⟩

theorem c3_witness :
    (handleInputPS initState 0
        [(false, true), (true, false), (false, true), (true, false), (false, true)]
      ).1.current_page
      = selectSpec [(false, true), (true, false), (false, true), (true, false), (false, true)] ∧
    selectSpec [(false, true), (true, false), (false, true), (true, false), (false, true)]
      = some "page4" :=
  ⟨(c3_page_selection false true true false false true true false false true
      initState initState 0 0 (by decide)).1, by decide⟩

/-- Claim C4 (code bug, concrete evaluation).  With page 2 floating alone
(all other pages consistently closed) at times 0, 31 and 32 seconds, the
floating fault `{2}` is ERROR-logged at 31s and then AGAIN at 32s although
the condition persisted unchanged — because the invalid-state check erases
the singleton signature `{2}` from `reported_faults` on every step.  At 30s
(elapsed not yet over 30) nothing is logged. -/
theorem c4_floating_fault_relog :
    (runSteps initState
      [(0, [(false, true), (false, false), (false, true), (false, true), (false, true)]),
       (31, [(false, true), (false, false), (false, true), (false, true), (false, true)]),
       (32, [(false, true), (false, false), (false, true), (false, true), (false, true)])]
      ).2
      = [LogEvent.errorFloatingFault [2], LogEvent.errorFloatingFault [2]] ∧
    (runSteps initState
      [(0, [(false, true), (false, false), (false, true), (false, true), (false, true)]),
       (30, [(false, true), (false, false), (false, true), (false, true), (false, true)])]
      ).2 = [] := by
  constructor <;> with_unfolding_all decide

/-- Claim C5 (confirmed).  Whenever at least one page is floating (both
switches false), the `_handle_input` step ends with `current_page = None`
regardless of the other pages' states, the prior state and the time. -/
theorem c5_floating_suppresses_selection (s : AppState) (now : ℚ)
    (ps : List (Bool × Bool)) (h : floatingNow ps ≠ []) :
    (handleInputPS s now ps).1.current_page = none := by
  unfold handleInputPS
  rw [if_neg h]
  exact handleFloating_current_page _ _ _ _

theorem c5_witness :
    (handleInputPS initState 0
      [(false, false), (true, false), (false, true), (true, false), (false, true)]
      ).1.current_page = none :=
  c5_floating_suppresses_selection initState 0 _ (by decide)

/-!
## Lemmas about the playback stream
-/

theorem advance_finished (st : PlayState) (dt : ℚ) (h : st.finished = true) :
    advance st dt = (st, []) := by
  unfold advance
  by_cases h0 : st.frameCount = 0
  · rw [if_pos h0]
  · rw [if_neg h0, if_pos h]

theorem advanceLoop_spec (n : ℕ) (fd : ℚ) (hfd : 0 < fd) :
    ∀ (m idx : ℕ) (acc : ℚ), n - idx ≤ m → idx < n → 0 ≤ acc →
      ((advanceLoop n fd acc idx).fin = true →
        (advanceLoop n fd acc idx).acc = 0 ∧
        (advanceLoop n fd acc idx).idx = n - 1 ∧
        (n : ℚ) * fd ≤ (idx : ℚ) * fd + acc ∧
        ((advanceLoop n fd acc idx).loads.getLast? = some (n - 1) ∨
          ((advanceLoop n fd acc idx).loads = [] ∧ idx = n - 1))) ∧
      ((advanceLoop n fd acc idx).fin = false →
        ((advanceLoop n fd acc idx).idx : ℚ) * fd + (advanceLoop n fd acc idx).acc
          = (idx : ℚ) * fd + acc ∧
        0 ≤ (advanceLoop n fd acc idx).acc ∧
        (advanceLoop n fd acc idx).acc < fd ∧
        (advanceLoop n fd acc idx).idx < n ∧
        (idx : ℚ) * fd + acc < (n : ℚ) * fd ∧
        ((advanceLoop n fd acc idx).loads.getLast?
            = some (advanceLoop n fd acc idx).idx ∨
          ((advanceLoop n fd acc idx).loads = []
            ∧ (advanceLoop n fd acc idx).idx = idx))) := by
  intro m
  induction m with
  | zero => intro idx acc hm hidx _; omega
  | succ m ih =>
    intro idx acc hm hidx hacc
    have hn1 : (idx : ℚ) + 1 ≤ (n : ℚ) := by
      have : idx + 1 ≤ n := hidx
      exact_mod_cast this
    rw [advanceLoop]
    by_cases h1 : fd ≤ acc
    · rw [if_pos h1]
      by_cases h2 : n ≤ idx + 1
      · rw [dif_pos h2]
        have hidx' : idx = n - 1 := by omega
        refine ⟨fun _ => ⟨rfl, rfl, ?_, Or.inr ⟨rfl, hidx'⟩⟩, fun hfin => by simp at hfin⟩
        have : (n : ℚ) * fd = (idx : ℚ) * fd + fd := by
          have hn : n = idx + 1 := by omega
          rw [hn]
          push_cast
          ring
        linarith
      · rw [dif_neg h2]
        dsimp only
        obtain ⟨IH1, IH2⟩ := ih (idx + 1) (acc - fd) (by omega) (by omega) (by linarith)
        constructor
        · intro hfin
          obtain ⟨e1, e2, e3, e4⟩ := IH1 hfin
          refine ⟨e1, e2, ?_, ?_⟩
          · push_cast at e3
            linarith
          · rcases e4 with e4 | ⟨e4, e4'⟩
            · left
              rcases hl : (advanceLoop n fd (acc - fd) (idx + 1)).loads with _ | ⟨x, xs⟩
              · rw [hl] at e4; simp at e4
              · rw [hl] at e4
                rw [List.getLast?_cons_cons]
                exact e4
            · left
              rw [e4]
              simp [e4']
        · intro hfin
          obtain ⟨e1, e2, e3, e4, e5, e6⟩ := IH2 hfin
          push_cast at e1 e5
          refine ⟨by linarith, e2, e3, e4, by linarith, ?_⟩
          rcases e6 with e6 | ⟨e6, e6'⟩
          · left
            rcases hl : (advanceLoop n fd (acc - fd) (idx + 1)).loads with _ | ⟨x, xs⟩
            · rw [hl] at e6; simp at e6
            · rw [hl] at e6
              rw [List.getLast?_cons_cons]
              exact e6
          · left
            rw [e6]
            simp [e6']
    · rw [if_neg h1]
      push_neg at h1
      refine ⟨fun hfin => by simp at hfin, fun _ => ⟨rfl, hacc, h1, hidx, ?_, Or.inr ⟨rfl, rfl⟩⟩⟩
      have : (idx : ℚ) * fd + acc < ((idx : ℚ) + 1) * fd := by nlinarith
      have h2 : ((idx : ℚ) + 1) * fd ≤ (n : ℚ) * fd := by nlinarith
      linarith

theorem advanceLoop_idx_lt (n : ℕ) (fd : ℚ) :
    ∀ (m idx : ℕ) (acc : ℚ), n - idx ≤ m → idx < n →
      (advanceLoop n fd acc idx).idx < n := by
  intro m
  induction m with
  | zero => intro idx acc hm hidx; omega
  | succ m ih =>
    intro idx acc hm hidx
    rw [advanceLoop]
    by_cases h1 : fd ≤ acc
    · rw [if_pos h1]
      by_cases h2 : n ≤ idx + 1
      · rw [dif_pos h2]
        simpa using by omega
      · rw [dif_neg h2]
        simpa using ih (idx + 1) (acc - fd) (by omega) (by omega)
    · rw [if_neg h1]
      exact hidx

/-- Invariant tying a playback state to the total time `T` fed to `advance`
since the last reset: while unfinished the frame grid position plus the
accumulator equals `T` and frames stay in range; once finished the state is
clamped to the last frame with zero accumulator, and finishing happens
exactly when `T` reaches the frame-grid length `N * fd`. -/
def AdvInv (N : ℕ) (fd T : ℚ) (st : PlayState) : Prop :=
  st.frameCount = N ∧ st.frame_duration = fd ∧
  (st.finished = false →
    (st.frame_index : ℚ) * fd + st.accumulator = T ∧
    0 ≤ st.accumulator ∧ st.accumulator < fd ∧ st.frame_index < N ∧
    st.last_surface = some st.frame_index ∧ st.elapsed_time = T ∧
    T < (N : ℚ) * fd) ∧
  (st.finished = true →
    st.frame_index = N - 1 ∧ st.accumulator = 0 ∧ st.last_surface = some (N - 1) ∧
    (N : ℚ) * fd ≤ T ∧ st.elapsed_time = durationOf st)

theorem advance_inv (N : ℕ) (fd T dt : ℚ) (st : PlayState) (hfd : 0 < fd)
    (hdt : 0 ≤ dt) (hinv : AdvInv N fd T st) : AdvInv N fd (T + dt) (advance st dt).1 := by
  obtain ⟨hc, hd, hunf, hfin⟩ := hinv
  subst hc
  subst hd
  by_cases hf : st.finished = true
  · rw [advance_finished st dt hf]
    obtain ⟨e1, e2, e3, e4, e5⟩ := hfin hf
    refine ⟨rfl, rfl, fun h => ?_, fun _ => ⟨e1, e2, e3, by linarith, e5⟩⟩
    have h' : st.finished = false := h
    rw [hf] at h'
    cases h' 
  · have hf' : st.finished = false := by simpa using hf
    obtain ⟨e1, e2, e3, e4, e5, e6, e7⟩ := hunf hf'
    have h0 : st.frameCount ≠ 0 := by omega
    have hA : 0 ≤ st.accumulator + dt := by linarith
    obtain ⟨S1, S2⟩ := advanceLoop_spec st.frameCount st.frame_duration hfd
      (st.frameCount - st.frame_index) st.frame_index (st.accumulator + dt) le_rfl e4 hA
    unfold advance
    rw [if_neg h0, if_neg hf]
    dsimp only
    cases hrf :
        (advanceLoop st.frameCount st.frame_duration (st.accumulator + dt)
          st.frame_index).fin with
    | false =>
      obtain ⟨u1, u2, u3, u4, u5, u6⟩ := S2 hrf
      have hlast :
          (match (advanceLoop st.frameCount st.frame_duration (st.accumulator + dt)
              st.frame_index).loads.getLast? with
            | some j => some j
            | none => st.last_surface)
          = some (advanceLoop st.frameCount st.frame_duration (st.accumulator + dt)
              st.frame_index).idx := by
        rcases u6 with u6 | ⟨u6, u6'⟩
        · rw [u6]
        · rw [u6]
          simpa [e5] using congrArg some u6'.symm
      rw [hlast]
      have hcond : ¬(false = true ∧
          (some (advanceLoop st.frameCount st.frame_duration (st.accumulator + dt)
            st.frame_index).idx : Option ℕ) = none) := by
        rintro ⟨h', -⟩
        cases h'
      rw [if_neg hcond]
      dsimp only
      rw [if_neg (by simp)]
      refine ⟨rfl, rfl, fun _ => ⟨?_, u2, u3, u4, rfl, ?_, ?_⟩,
        fun h => by simp at h⟩
      · dsimp only
        linarith
      · dsimp only
        rw [min_eq_left u3.le]
        linarith
      · linarith
    | true =>
      obtain ⟨v1, v2, v3, v4⟩ := S1 hrf
      have hlast :
          (match (advanceLoop st.frameCount st.frame_duration (st.accumulator + dt)
              st.frame_index).loads.getLast? with
            | some j => some j
            | none => st.last_surface)
          = some (st.frameCount - 1) := by
        rcases v4 with v4 | ⟨v4, v4'⟩
        · rw [v4]
        · rw [v4]
          simpa [e5] using congrArg some v4'
      rw [hlast]
      have hcond : ¬(true = true ∧
          (some (st.frameCount - 1) : Option ℕ) = none) := by
        rintro ⟨-, h'⟩
        cases h'
      rw [if_neg hcond]
      dsimp only
      rw [if_pos rfl]
      refine ⟨rfl, rfl, fun h => by simp at h,
        fun _ => ⟨v2, v1, rfl, by linarith, rfl⟩⟩

theorem runAdvances_inv (N : ℕ) (fd : ℚ) (hfd : 0 < fd) :
    ∀ (dts : List ℚ) (T : ℚ) (st : PlayState), AdvInv N fd T st →
      (∀ dt ∈ dts, 0 ≤ dt) →
      AdvInv N fd (T + dts.sum) (runAdvances st dts).1 := by
  intro dts
  induction dts with
  | nil => intro T st hinv _; simpa [runAdvances] using hinv
  | cons dt rest ih =>
    intro T st hinv hge
    have h1 := advance_inv N fd T dt st hfd (hge dt (List.mem_cons_self _ _)) hinv
    have h2 := ih (T + dt) (advance st dt).1 h1
      (fun d hd => hge d (List.mem_cons_of_mem _ hd))
    simp only [runAdvances, List.sum_cons]
    have harith : T + dt + rest.sum = T + (dt + rest.sum) := by ring
    rw [← harith]
    exact h2

theorem resetStream_inv (N : ℕ) (fd : ℚ) (st : PlayState) (hN : 0 < N) (hfd : 0 < fd)
    (hc : st.frameCount = N) (hd : st.frame_duration = fd) :
    AdvInv N fd 0 (resetStream st) := by
  subst hc
  subst hd
  have h0 : st.frameCount ≠ 0 := by omega
  unfold resetStream loadFrame
  rw [if_neg h0]
  dsimp only
  have hmin : min 0 (st.frameCount - 1) = 0 := by omega
  rw [hmin]
  refine ⟨rfl, rfl, fun _ => ⟨by push_cast; ring, le_rfl, hfd, hN, rfl, rfl, ?_⟩,
    fun h => by simp at h⟩
  have : (0 : ℚ) < (st.frameCount : ℚ) := by exact_mod_cast hN
  positivity

/-- Claim C7 (amended).  From a fresh reset of a stream with `N > 0` cached
frames and frame duration `fd > 0`, any sequence of non-negative `advance`
calls finishes exactly when the cumulative `dt` reaches the frame-grid
length `N * fd` (which equals the `duration` property when
`duration_seconds` is unset, but not in general — see the counterexample);
once finished the state is clamped to the last frame with a zero
accumulator, holds the last frame surface, and `elapsed_time` is the
`duration` property; while unfinished, `elapsed_time` equals the cumulative
`dt`; and an `advance` on a finished stream returns the state unchanged and
loads nothing from disk. -/
theorem c7_advance_playback (st : PlayState) (N : ℕ) (fd : ℚ) (dts : List ℚ)
    (hc : st.frameCount = N) (hd : st.frame_duration = fd)
    (hN : 0 < N) (hfd : 0 < fd) (hdts : ∀ dt ∈ dts, 0 ≤ dt) :
    ((runAdvances (resetStream st) dts).1.finished = true ↔ (N : ℚ) * fd ≤ dts.sum) ∧
    ((runAdvances (resetStream st) dts).1.finished = true →
      (runAdvances (resetStream st) dts).1.frame_index = N - 1 ∧
      (runAdvances (resetStream st) dts).1.accumulator = 0 ∧
      (runAdvances (resetStream st) dts).1.last_surface = some (N - 1) ∧
      (runAdvances (resetStream st) dts).1.elapsed_time
        = durationOf (runAdvances (resetStream st) dts).1) ∧
    ((runAdvances (resetStream st) dts).1.finished = false →
      (runAdvances (resetStream st) dts).1.elapsed_time = dts.sum) ∧
    (∀ (st' : PlayState) (dt' : ℚ), st'.finished = true → advance st' dt' = (st', [])) := by
  have hres := resetStream_inv N fd st hN hfd hc hd
  have hrun := runAdvances_inv N fd hfd dts 0 (resetStream st) hres hdts
  rw [zero_add] at hrun
  obtain ⟨_, _, hunf, hfin⟩ := hrun
  refine ⟨?_, fun h => ?_, fun h => ?_, fun st' dt' h => advance_finished st' dt' h⟩
  · constructor
    · intro h
      exact (hfin h).2.2.2.1
    · intro h
      by_cases hb : (runAdvances (resetStream st) dts).1.finished = true
      · exact hb
      · have hb' : (runAdvances (resetStream st) dts).1.finished = false := by
          simpa using hb
        have := (hunf hb').2.2.2.2.2.2
        linarith
  · obtain ⟨f1, f2, f3, _, f5⟩ := hfin h
    exact ⟨f1, f2, f3, f5⟩
  · exact (hunf h).2.2.2.2.2.1

/-- Claim C7 counterexample: a stream state with two cached frames, frame
duration 1 and `duration_seconds = 1` (as `_apply_metadata` installs when
the metadata records a duration shorter than the frame grid).  Its
`duration` property is 1, yet a fresh reset followed by `advance` with the
full clip duration 1 leaves `finished = False`: cumulative `dt` equal to
the clip duration does not set `finished` when the duration is shorter
than `frame_count * frame_duration`. -/
theorem c7_counterexample :
    durationOf
      { frameCount := 2, frame_duration := 1, accumulator := 0, elapsed_time := 0,
        frame_index := 0, finished := true, last_surface := none,
        duration_seconds := 1 } = 1 ∧
    (advance (resetStream
      { frameCount := 2, frame_duration := 1, accumulator := 0, elapsed_time := 0,
        frame_index := 0, finished := true, last_surface := none,
        duration_seconds := 1 }) 1).1.finished = false := by
  constructor
  · with_unfolding_all decide
  · with_unfolding_all decide

theorem c7_witness :
    (runAdvances (resetStream
      { frameCount := 2, frame_duration := 1, accumulator := 0, elapsed_time := 0,
        frame_index := 0, finished := true, last_surface := none,
        duration_seconds := 2 }) [1, 1]).1.finished = true :=
  (c7_advance_playback
    { frameCount := 2, frame_duration := 1, accumulator := 0, elapsed_time := 0,
      frame_index := 0, finished := true, last_surface := none,
      duration_seconds := 2 } 2 1 [1, 1] rfl rfl (by decide) (by decide)
    (by intro dt hdt; simp only [List.mem_cons, List.not_mem_nil, or_false] at hdt
        rcases hdt with rfl | rfl <;> norm_num)).1.mpr
    (by norm_num)

/-!
## Lemmas for the frame-index range invariant
-/

theorem loadFrame_frameCount (st : PlayState) (i : ℕ) :
    (loadFrame st i).frameCount = st.frameCount := by
  unfold loadFrame
  split <;> rfl

theorem loadFrame_idx_lt (st : PlayState) (i : ℕ) (h : st.frame_index < st.frameCount) :
    (loadFrame st i).frame_index < st.frameCount := by
  unfold loadFrame
  split
  · exact h
  · dsimp only
    omega

theorem advance_frameCount (st : PlayState) (dt : ℚ) :
    (advance st dt).1.frameCount = st.frameCount := by
  unfold advance
  split
  · rfl
  · split
    · rfl
    · dsimp only
      split
      · dsimp only
        rw [loadFrame_frameCount]
      · rfl

theorem advance_idx_lt (st : PlayState) (dt : ℚ)
    (h : st.frame_index < st.frameCount) :
    (advance st dt).1.frame_index < st.frameCount := by
  have hn0 : st.frameCount ≠ 0 := by omega
  have hloop := advanceLoop_idx_lt st.frameCount st.frame_duration
    (st.frameCount - st.frame_index) st.frame_index (st.accumulator + dt) le_rfl h
  unfold advance
  rw [if_neg hn0]
  split
  · exact h
  · dsimp only
    split
    · dsimp only
      unfold loadFrame
      rw [if_neg hn0]
      dsimp only
      omega
    · exact hloop

/-- Claim C10 (confirmed).  For a stream with a non-empty frame list, every
sequence of `reset`, `advance` (with non-negative `dt`) and `close` calls
keeps `frame_index` strictly below the number of cached frames, so frame
lookups never index out of bounds. -/
theorem c10_frame_index_in_range (st : PlayState) (ops : List StreamOp)
    (hN : 0 < st.frameCount) (hidx : st.frame_index < st.frameCount)
    (hdt : ∀ dt, StreamOp.adv dt ∈ ops → 0 ≤ dt) :
    (runOps st ops).frame_index < (runOps st ops).frameCount ∧
    (runOps st ops).frameCount = st.frameCount := by
  induction ops generalizing st with
  | nil => exact ⟨hidx, rfl⟩
  | cons op rest ih =>
    have hstep : (applyOp st op).frame_index < (applyOp st op).frameCount ∧
        (applyOp st op).frameCount = st.frameCount := by
      cases op with
      | reset =>
        unfold applyOp resetStream
        rw [loadFrame_frameCount]
        refine ⟨?_, rfl⟩
        exact loadFrame_idx_lt _ 0 hN
      | adv dt =>
        unfold applyOp
        rw [advance_frameCount]
        exact ⟨advance_idx_lt st dt hidx, rfl⟩
      | close =>
        unfold applyOp closeStream
        exact ⟨hN, rfl⟩
    have hrest := ih (applyOp st op)
      (by rw [hstep.2]; exact hN) hstep.1
      (fun dt hdt' => hdt dt (List.mem_cons_of_mem _ hdt'))
    simp only [runOps, List.foldl_cons] at hrest ⊢
    exact ⟨hrest.1, hrest.2.trans hstep.2⟩

theorem c10_witness :
    (runOps
      { frameCount := 3, frame_duration := 1, accumulator := 0, elapsed_time := 0,
        frame_index := 0, finished := true, last_surface := none,
        duration_seconds := 3 }
      [StreamOp.reset, StreamOp.adv 1, StreamOp.adv 5, StreamOp.close,
       StreamOp.reset]).frame_index
      < (runOps
      { frameCount := 3, frame_duration := 1, accumulator := 0, elapsed_time := 0,
        frame_index := 0, finished := true, last_surface := none,
        duration_seconds := 3 }
      [StreamOp.reset, StreamOp.adv 1, StreamOp.adv 5, StreamOp.close,
       StreamOp.reset]).frameCount :=
  (c10_frame_index_in_range _ _ (by decide) (by decide)
    (by
      intro dt hop
      simp only [List.mem_cons, List.not_mem_nil, or_false] at hop
      rcases hop with h | h | h | h | h
      · exact absurd h (by simp)
      · rw [StreamOp.adv.injEq] at h
        subst h
        norm_num
      · rw [StreamOp.adv.injEq] at h
        subst h
        norm_num
      · exact absurd h (by simp)
      · exact absurd h (by simp))).1

/-!
## Lemmas about the frame cache manager
-/

theorem cacheIsValid_iff (w h : ℕ) (fl mt : ℚ) (md : Option CacheMetadata) (n : ℕ) :
    cacheIsValid w h fl mt md n = true ↔
      ∃ m, md = some m ∧ m.source_mtime = some mt ∧ m.width = some w ∧
        m.height = some h ∧ m.fps_limit = some fl ∧ m.frame_count = some n ∧
        n ≠ 0 := by
  unfold cacheIsValid
  rcases md with _ | m
  · simp
  · dsimp only
    by_cases hn : n = 0
    · subst hn
      simp
    · rw [if_neg hn]
      constructor
      · intro hb
        simp only [Bool.and_eq_true, decide_eq_true_eq] at hb
        exact ⟨m, rfl, hb.1.1.1.1, hb.1.1.1.2, hb.1.1.2, hb.1.2, hb.2, hn⟩
      · rintro ⟨m', hm', e1, e2, e3, e4, e5, -⟩
        obtain rfl : m = m' := Option.some.inj hm'
        simp only [Bool.and_eq_true, decide_eq_true_eq]
        exact ⟨⟨⟨⟨e1, e2⟩, e3⟩, e4⟩, e5⟩

theorem ensureCache_of_valid (w h : ℕ) (fl mt : ℚ) (dec : DecodeSource)
    (fs : CacheFS) (m : CacheMetadata) (hm : fs.metadata = some m)
    (hv : cacheIsValid w h fl mt fs.metadata fs.frameFiles = true) :
    ensureCache w h fl mt dec fs = .ok (fs, applyMetadata m fs.frameFiles, false) := by
  have hn0 : fs.frameFiles ≠ 0 := by
    obtain ⟨m', hm', _, _, _, _, _, hnz⟩ := (cacheIsValid_iff w h fl mt _ _).mp hv
    exact hnz
  unfold ensureCache
  rw [hv]
  dsimp only
  rw [if_pos rfl]
  dsimp only
  rw [hm]
  dsimp only
  rw [if_neg hn0]
  rfl

theorem ensureCache_ok_valid (w h : ℕ) (fl mt : ℚ) (dec : DecodeSource)
    (fs fs' : CacheFS) (r : ApplyResult) (b : Bool)
    (hok : ensureCache w h fl mt dec fs = .ok (fs', r, b)) :
    cacheIsValid w h fl mt fs'.metadata fs'.frameFiles = true ∧
    ∃ m, fs'.metadata = some m ∧ r = applyMetadata m fs'.frameFiles := by
  unfold ensureCache at hok
  by_cases hv : cacheIsValid w h fl mt fs.metadata fs.frameFiles = true
  · rw [hv] at hok
    dsimp only at hok
    rw [if_pos rfl] at hok
    dsimp only at hok
    rcases hm : fs.metadata with _ | m
    · rw [hm] at hok
      dsimp only at hok
      cases hok
    · rw [hm] at hok
      dsimp only at hok
      by_cases hn0 : fs.frameFiles = 0
      · rw [if_pos hn0] at hok
        cases hok
      · rw [if_neg hn0] at hok
        injection hok with hp
        injection hp with h1 hq
        injection hq with h2 h3
        subst h1
        subst h2
        exact ⟨hv, m, hm, rfl⟩
  · have hv' : cacheIsValid w h fl mt fs.metadata fs.frameFiles = false := by
      simpa using hv
    rw [hv'] at hok
    dsimp only at hok
    rw [if_neg (by simp)] at hok
    unfold rebuildCache at hok
    dsimp only at hok
    by_cases hfr : dec.frames = 0
    · rw [if_pos hfr] at hok
      cases hok
    · rw [if_neg hfr] at hok
      dsimp only at hok
      rw [if_neg hfr] at hok
      injection hok with hp
      injection hp with h1 hq
      injection hq with h2 h3
      subst h1
      subst h2
      constructor
      · rw [cacheIsValid_iff]
        exact ⟨_, rfl, rfl, rfl, rfl, rfl, rfl, hfr⟩
      · exact ⟨_, rfl, rfl⟩

/-- Claim C6 (confirmed).  `_cache_is_valid` holds exactly when metadata is
present and its stored `source_mtime`, `width`, `height`, `fps_limit` and
`frame_count` match the live source mtime, the target size, the stream's
fps limit and the number of on-disk frame files, which must be non-zero;
and `ensure_cache` is idempotent under an unchanged fingerprint: after a
successful call, a second call (with any decode behaviour, since it never
decodes) rebuilds nothing and returns the same cache state, frame count
and duration. -/
theorem c6_ensure_cache (w h : ℕ) (fl mt : ℚ) (dec dec' : DecodeSource)
    (fs fs' : CacheFS) (r : ApplyResult) (b : Bool)
    (hok : ensureCache w h fl mt dec fs = .ok (fs', r, b)) :
    (∀ (md : Option CacheMetadata) (n : ℕ),
      cacheIsValid w h fl mt md n = true ↔
        ∃ m, md = some m ∧ m.source_mtime = some mt ∧ m.width = some w ∧
          m.height = some h ∧ m.fps_limit = some fl ∧ m.frame_count = some n ∧
          n ≠ 0) ∧
    ensureCache w h fl mt dec' fs' = .ok (fs', r, false) := by
  obtain ⟨hvalid, m, hm, hr⟩ := ensureCache_ok_valid w h fl mt dec fs fs' r b hok
  refine ⟨fun md n => cacheIsValid_iff w h fl mt md n, ?_⟩
  rw [ensureCache_of_valid w h fl mt dec' fs' m hm hvalid, hr]

theorem c6_witness :
    ensureCache 100 50 24 5 { fps := some 24, duration := some 10, frames := 240 }
        { metadata := none, frameFiles := 0 }
      = .ok
        ({ metadata := some
            { fps := some 24, frame_count := some 240, duration := some 10,
              width := some 100, height := some 50, fps_limit := some 24,
              source_mtime := some 5 }
           frameFiles := 240 },
         { fps := 24, frame_duration := 1 / 24, duration_seconds := 10 }, true) ∧
    ensureCache 100 50 24 5 { fps := some 24, duration := some 10, frames := 240 }
        { metadata := some
            { fps := some 24, frame_count := some 240, duration := some 10,
              width := some 100, height := some 50, fps_limit := some 24,
              source_mtime := some 5 }
          frameFiles := 240 }
      = .ok
        ({ metadata := some
            { fps := some 24, frame_count := some 240, duration := some 10,
              width := some 100, height := some 50, fps_limit := some 24,
              source_mtime := some 5 }
           frameFiles := 240 },
         { fps := 24, frame_duration := 1 / 24, duration_seconds := 10 }, false) := by
  constructor
  · with_unfolding_all rfl
  · exact (c6_ensure_cache 100 50 24 5
      { fps := some 24, duration := some 10, frames := 240 }
      { fps := some 24, duration := some 10, frames := 240 }
      { metadata := none, frameFiles := 0 } _ _ _
      (by with_unfolding_all rfl)).2

/-!
## Claim theorems about the frame-load retry loop
-/

/-- Claim C8 (amended).  The `while True` retry loop of `_load_frame` exits
only when some load attempt succeeds: within any observation window of
`fuel` iterations it is still running iff every attempt in the window
failed, and when the first success is attempt `k` it performs exactly `k`
rebuild-and-retry cycles before returning — so the number of cycles is
unbounded and a permanently failing load never terminates, rather than
being capped at one bounded rebuild-and-retry. -/
theorem c8_load_retry_unbounded :
    (∀ (loadOk : ℕ → Bool) (fuel attempt : ℕ),
      (loadFrameLoop loadOk attempt fuel).1 = none ↔
        ∀ k, k < fuel → loadOk (attempt + k) = false) ∧
    (∀ (loadOk : ℕ → Bool) (fuel attempt k : ℕ),
      k < fuel → (∀ m, m < k → loadOk (attempt + m) = false) →
      loadOk (attempt + k) = true →
      loadFrameLoop loadOk attempt fuel = (some (attempt + k), k)) := by
  constructor
  · intro loadOk fuel
    induction fuel with
    | zero => intro attempt; simp [loadFrameLoop]
    | succ fuel ih =>
      intro attempt
      unfold loadFrameLoop
      by_cases hl : loadOk attempt = true
      · rw [if_pos hl]
        dsimp only
        constructor
        · intro hc; cases hc
        · intro hr
          have := hr 0 (Nat.succ_pos _)
          rw [Nat.add_zero, hl] at this
          cases this
      · rw [if_neg hl]
        dsimp only
        rw [ih (attempt + 1)]
        constructor
        · intro hr k hk
          rcases Nat.eq_zero_or_pos k with rfl | hkpos
          · rw [Nat.add_zero]
            simpa using hl
          · have := hr (k - 1) (by omega)
            have he : attempt + 1 + (k - 1) = attempt + k := by omega
            rwa [he] at this
        · intro hr k hk
          have := hr (k + 1) (by omega)
          have he : attempt + (k + 1) = attempt + 1 + k := by omega
          rwa [he] at this
  · intro loadOk fuel
    induction fuel with
    | zero => intro attempt k hk; omega
    | succ fuel ih =>
      intro attempt k hk hall hsucc
      unfold loadFrameLoop
      rcases Nat.eq_zero_or_pos k with rfl | hkpos
      · rw [Nat.add_zero] at hsucc
        rw [if_pos hsucc, Nat.add_zero]
      · have h0 : loadOk attempt = false := by
          have := hall 0 hkpos
          rwa [Nat.add_zero] at this
        rw [if_neg (by rw [h0]; exact Bool.false_ne_true)]
        dsimp only
        have ihk := ih (attempt + 1) (k - 1) (by omega)
          (fun m hm => by
            have := hall (m + 1) (by omega)
            have he : attempt + (m + 1) = attempt + 1 + m := by omega
            rwa [he] at this)
          (by
            have he : attempt + k = attempt + 1 + (k - 1) := by omega
            rwa [he] at hsucc)
        rw [ihk]
        have he1 : attempt + 1 + (k - 1) = attempt + k := by omega
        have he2 : k - 1 + 1 = k := by omega
        rw [he1, he2]

/-- Claim C8 counterexample: a permanently failing loader.  Within the
first three iterations of the retry loop the load has not returned and
three `ensure_cache` rebuild-and-retry cycles have already been performed,
contradicting "at most one bounded rebuild-and-retry cycle"; by
`c8_load_retry_unbounded` no larger window terminates either. -/
theorem c8_counterexample :
    loadFrameLoop (fun _ => false) 0 3 = (none, 3) := by decide

theorem c8_witness :
    loadFrameLoop (fun k => k == 3) 0 10 = (some 3, 3) := by
  have H := c8_load_retry_unbounded.2 (fun k => k == 3) 10 0 3 (by norm_num)
    (by intro m hm; simp only [Nat.zero_add, beq_eq_false_iff_ne]; omega)
    (by decide)
  simpa using H

/-!
## Lemmas about the serial line parser
-/

theorem parseFields_keys :
    ∀ (states : List String) (idx : ℕ),
      ∃ n, n ≤ states.length ∧
        (parseFields idx states).1.map Prod.fst = (List.range' idx n).map parserKey ∧
        ((∀ s ∈ states, (pyInt s).isSome) → n = states.length) := by
  intro states
  induction states with
  | nil =>
    intro idx
    exact ⟨0, by simp, by simp [parseFields], fun _ => by simp⟩
  | cons st rest ih =>
    intro idx
    rcases hp : pyInt st with _ | v
    · refine ⟨0, by simp, ?_, ?_⟩
      · simp [parseFields, hp]
      · intro hall
        have := hall st (List.mem_cons_self _ _)
        rw [hp] at this
        simp at this
    · obtain ⟨n, hn, hkeys, hfull⟩ := ih (idx + 1)
      refine ⟨n + 1, by simpa using hn, ?_, ?_⟩
      · simp only [parseFields, hp]
        rw [List.range'_succ]
        simp only [List.map_cons]
        rw [← hkeys]
      · intro hall
        simp only [List.length_cons]
        have := hfull (fun s hs => hall s (List.mem_cons_of_mem _ hs))
        omega

theorem parseFields_logs :
    ∀ (states : List String) (idx : ℕ),
      (parseFields idx states).2 = [] ∨
        (parseFields idx states).2 = [ParseLog.errorValueFailure] := by
  intro states
  induction states with
  | nil => intro idx; left; rfl
  | cons st rest ih =>
    intro idx
    rcases hp : pyInt st with _ | v
    · right
      simp [parseFields, hp]
    · simp only [parseFields, hp]
      exact ih (idx + 1)

/-- Claim C9 (amended).  For every input line: the field-count warning is
logged exactly when the split line does not have ten fields (the line is
still parsed, never rejected); and the output map's keys are precisely
`parserKey 0, parserKey 1, ...` for an initial segment of the fields — all
of them when every field parses as an integer, fewer when a `ValueError`
aborts the loop.  Keys for fields missing from the line are NOT added
(there is no `false` default in the parser; the default is applied
downstream by `_handle_input`'s `dict.get`). -/
theorem c9_parse_line (line : String) :
    (ParseLog.warnUnexpectedCount (line.trim.splitOn ",").length 10 ∈ (parseLine line).2
      ↔ (line.trim.splitOn ",").length ≠ 10) ∧
    (∃ n, n ≤ (line.trim.splitOn ",").length ∧
      (parseLine line).1.map Prod.fst = (List.range n).map parserKey ∧
      ((∀ s ∈ line.trim.splitOn ",", (pyInt s).isSome) →
        n = (line.trim.splitOn ",").length)) := by
  constructor
  · unfold parseLine
    dsimp only
    by_cases hlen : (line.trim.splitOn ",").length ≠ 10
    · rw [if_pos hlen]
      simp [hlen]
    · rw [if_neg hlen]
      simp only [List.nil_append]
      push_neg at hlen
      rcases parseFields_logs (line.trim.splitOn ",") 0 with h | h <;> rw [h] <;>
        simp [hlen]
  · obtain ⟨n, hn, hkeys, hfull⟩ := parseFields_keys (line.trim.splitOn ",") 0
    refine ⟨n, hn, ?_, hfull⟩
    unfold parseLine
    dsimp only
    rw [hkeys, List.range_eq_range']

/-- Claim C9 counterexample: the line `"1"` parses to a map holding only
`page1_open`; the other nine keys, `page1_close` among them, are absent
rather than present with value `false`. -/
theorem c9_counterexample :
    (parseLine "1").1 = [("page1_open", true)] ∧
    (parseLine "1").1.lookup "page1_close" = none := by
  constructor <;> with_unfolding_all decide

theorem c9_witness :
    ParseLog.warnUnexpectedCount ("1".trim.splitOn ",").length 10 ∈ (parseLine "1").2 :=
  (c9_parse_line "1").1.mpr (by with_unfolding_all decide)

end MuseumBook

